import Mathlib

/-!
A shallow embedding of `aten/src/TH/THGeneral.cpp`: the error and assertion
reporting machinery (`_THError`, `_THArgCheck`, `_THAssertionFailed`, the
handler registration operations), the allocation layer (`THAlloc`,
`THRealloc`, `THFree`, GC hook), and the descriptive buffer formatter
(`_THSizeDesc`), together with theorems about their observable behavior.

Character buffers are modeled as `List Char`; `snprintf` is modeled with its
documented C semantics (truncating write, return value is the untruncated
length, a size argument of `0` writes nothing and a negative size argument is
converted to an unsigned `size_t` and therefore never truncates).  Only the
printf conversions actually used by the source (`%d`, `%s`, `PRId64`) are
interpreted.
-/

/-- NUL, the terminator of C strings. -/
def nulChar : Char := Char.ofNat 0

/-- Write the characters `s` into buffer `buf` at position `pos`, padding
with NUL if the buffer is shorter than `pos`.  Models a raw memory write at
offset `pos` into a character buffer. -/
def writeAt (buf : List Char) (pos : Nat) (s : List Char) : List Char :=
  (buf ++ List.replicate (pos - buf.length) nulChar).take pos ++ s
    ++ buf.drop (pos + s.length)

/-- Model of `snprintf(buf+pos, sz, ...)` where `s` is the already rendered
formatted text and `sz` is the size argument as computed in signed C
arithmetic.  Returns the updated buffer and the return value of `snprintf`
(the length the text would have had without truncation).  Size `0` writes
nothing; a negative size is converted to `size_t`, becoming effectively
unbounded, so the whole text plus terminator is written. -/
def snprintfAt (buf : List Char) (pos : Nat) (sz : Int) (s : List Char) :
    List Char × Nat :=
  if 0 < sz then (writeAt buf pos (s.take (sz.toNat - 1) ++ [nulChar]), s.length)
  else if sz = 0 then (buf, s.length)
  else (writeAt buf pos (s ++ [nulChar]), s.length)

/-- Read a C string out of a buffer: the characters before the first NUL. -/
def readCString (buf : List Char) : List Char :=
  buf.takeWhile (fun c => c != nulChar)

/-- Decimal digits of a natural number, as rendered by printf; the first
argument is recursion fuel (any fuel larger than the number of digits gives
the full rendering). -/
def natDecimalAux : Nat → Nat → List Char
  | 0, _ => []
  | fuel + 1, n =>
    if n < 10 then [Char.ofNat (48 + n)]
    else natDecimalAux fuel (n / 10) ++ [Char.ofNat (48 + n % 10)]

/-- Decimal rendering of a natural number. -/
def natDecimal (n : Nat) : List Char :=
  natDecimalAux (n + 1) n

/-- Rendering of a signed integer by the printf `%d` / `PRId64` conversions. -/
def intChars (i : Int) : List Char :=
  if i < 0 then '-' :: natDecimal i.natAbs else natDecimal i.natAbs

/-- An argument passed to one of the variadic functions of THGeneral.cpp. -/
inductive FmtArg
  | int (i : Int)
  | str (s : String)
deriving DecidableEq

/-- Model of printf-style formatting (the text `vsnprintf` would produce,
before any truncation): interpret the `%d` and `%s` conversions of a format
string against a list of arguments; all other characters are copied. -/
def formatArgs : List Char → List FmtArg → List Char
  | '%' :: 'd' :: rest, FmtArg.int i :: as => intChars i ++ formatArgs rest as
  | '%' :: 's' :: rest, FmtArg.str s :: as => s.data ++ formatArgs rest as
  | c :: rest, as => c :: formatArgs rest as
  | [], _ => []

example : natDecimal 305 = ('3' :: '0' :: '5' :: []) := by decide

example : intChars (-42) = ('-' :: '4' :: '2' :: []) := by decide

example :
    formatArgs (("a: %d, b: %s").data) (FmtArg.int 7 :: FmtArg.str ("hi") :: [])
      = ("a: 7, b: hi").data := by decide

/-! ## Error and argument-check reporting (`THGeneral.cpp`, handler state)

The mutable globals of the source file: `defaultErrorHandler` and
`defaultArgErrorHandler` are function pointers initialized to the built-in
handlers; `threadErrorHandler` and `threadArgErrorHandler` are thread-local
function pointers initialized to `NULL`.  The state below models these four
pointers, with their companion opaque `void *` data words, as seen by one
thread (the thread running the call). -/

/-- A C function pointer holding an error handler: either the built-in
`defaultErrorHandlerFunction` or `defaultArgErrorHandlerFunction` of the
source file, or a user-supplied handler identified by its address. -/
inductive HandlerPtr
  | builtin
  | user (addr : Nat)
deriving DecidableEq

/-- The handler-registration state of `THGeneral.cpp` as seen by one thread:
the process-wide default error handler and argument-error handler (function
pointer and opaque data), and the thread-local overrides (`NULL`, i.e.
`none`, when absent). -/
structure THState where
  defaultErrorHandler : HandlerPtr
  defaultErrorHandlerData : Nat
  threadErrorHandler : Option Nat
  threadErrorHandlerData : Nat
  defaultArgErrorHandler : HandlerPtr
  defaultArgErrorHandlerData : Nat
  threadArgErrorHandler : Option Nat
  threadArgErrorHandlerData : Nat
deriving DecidableEq

/-- The state at program start: both defaults are the built-in handlers, the
thread-local overrides are `NULL` and all data words are zero-initialized. -/
def initTHState : THState :=
  ⟨HandlerPtr.builtin, 0, none, 0, HandlerPtr.builtin, 0, none, 0⟩

/-- Model of `THSetErrorHandler`: store the (possibly `NULL`) handler and its
data into the thread-local error-handler registration. -/
def THSetErrorHandler (s : THState) (new_handler : Option Nat) (data : Nat) :
    THState :=
  { s with threadErrorHandler := new_handler, threadErrorHandlerData := data }

/-- Model of `THSetDefaultErrorHandler`: a non-`NULL` handler is installed as
the process-wide default; a `NULL` handler resets the default to the built-in
`defaultErrorHandlerFunction`; the data word is stored in both cases. -/
def THSetDefaultErrorHandler (s : THState) (new_handler : Option Nat)
    (data : Nat) : THState :=
  { s with
    defaultErrorHandler :=
      match new_handler with
      | some k => HandlerPtr.user k
      | none => HandlerPtr.builtin
    defaultErrorHandlerData := data }

/-- Model of `THSetArgErrorHandler`: thread-local argument-error handler. -/
def THSetArgErrorHandler (s : THState) (new_handler : Option Nat)
    (data : Nat) : THState :=
  { s with
    threadArgErrorHandler := new_handler
    threadArgErrorHandlerData := data }

/-- Model of `THSetDefaultArgErrorHandler`: like `THSetDefaultErrorHandler`
but on the separate argument-error registration. -/
def THSetDefaultArgErrorHandler (s : THState) (new_handler : Option Nat)
    (data : Nat) : THState :=
  { s with
    defaultArgErrorHandler :=
      match new_handler with
      | some k => HandlerPtr.user k
      | none => HandlerPtr.builtin
    defaultArgErrorHandlerData := data }

/-- The raw 2048-character message buffer built by `_THError` and (for a
failed condition) `_THArgCheck`: `n = vsnprintf(msg, 2048, fmt, args)`
followed, when `n < 2048`, by `snprintf(msg+n, 2048-n, " at %s:%d", file,
line)`. -/
def thMsgBuf (file : String) (line : Int) (fmt : String)
    (args : List FmtArg) : List Char :=
  let r1 := snprintfAt [] 0 2048 (formatArgs fmt.data args)
  if r1.2 < 2048 then
    (snprintfAt r1.1 r1.2 ((2048 : Int) - (r1.2 : Int))
      (formatArgs ((" at %s:%d").data)
        (FmtArg.str file :: FmtArg.int line :: []))).1
  else r1.1

/-- The message text `_THError` and `_THArgCheck` deliver to the handler:
the C string held in the 2048-character buffer. -/
def thMessage (file : String) (line : Int) (fmt : String)
    (args : List FmtArg) : List Char :=
  readCString (thMsgBuf file line fmt args)

/-- What `_THError` hands to the error handler it invokes: the handler, its
registered opaque data, and the message.  `_THError` never returns (the call
of the handler is followed by `TH_UNREACHABLE`), so this dispatch record is
the entire observable outcome. -/
structure ErrorDispatch where
  handler : HandlerPtr
  data : Nat
  message : List Char
deriving DecidableEq

/-- Model of `_THError`: build the bounded message, then invoke the
thread-local error handler if one is registered, else the process-wide
default, passing the corresponding data. -/
def _THError (s : THState) (file : String) (line : Int) (fmt : String)
    (args : List FmtArg) : ErrorDispatch :=
  match s.threadErrorHandler with
  | some k =>
    { handler := HandlerPtr.user k
      data := s.threadErrorHandlerData
      message := thMessage file line fmt args }
  | none =>
    { handler := s.defaultErrorHandler
      data := s.defaultErrorHandlerData
      message := thMessage file line fmt args }

/-- The built-in default error handler: `printf("$ Error: %s\n", msg)`
followed by `exit(-1)`, modeled as the printed text and the exit status. -/
def defaultErrorHandlerFunction (msg : String) : String × Int :=
  (("$ Error: ") ++ msg ++ ("\n"), -1)

/-- The explanation text built by `_THAssertionFailed`: `vsnprintf(msg, 1024,
fmt, args)` into a 1024-character buffer, read back as a C string when the
buffer is passed to `_THError` through the `%s` conversion. -/
def assertExplanation (fmt : String) (args : List FmtArg) : List Char :=
  readCString (snprintfAt [] 0 1024 (formatArgs fmt.data args)).1

/-- Model of `_THAssertionFailed`: format the explanatory text into a
1024-character buffer, then forward to `_THError` at the same location with
the fixed format string. -/
def _THAssertionFailed (s : THState) (file : String) (line : Int)
    (exp : String) (fmt : String) (args : List FmtArg) : ErrorDispatch :=
  _THError s file line ("Assertion `%s\x27 failed. %s")
    (FmtArg.str exp :: FmtArg.str (String.mk (assertExplanation fmt args)) :: [])

/-- What `_THArgCheck` hands to the argument-error handler when the checked
condition is false: the handler, the argument index, the message and the
registered opaque data.  The handler invocation is followed by
`TH_UNREACHABLE`, so the call never returns on this path. -/
structure ArgDispatch where
  handler : HandlerPtr
  argNumber : Int
  message : List Char
  data : Nat
deriving DecidableEq

/-- Model of `_THArgCheck`: nothing happens when the condition holds
(`none`); otherwise the 2048-character message is built exactly as in
`_THError` and dispatched, with the argument index, to the thread-local
argument-error handler if registered, else the process-wide default. -/
def _THArgCheck (s : THState) (file : String) (line : Int) (condition : Bool)
    (argNumber : Int) (fmt : String) (args : List FmtArg) :
    Option ArgDispatch :=
  if condition then none
  else
    match s.threadArgErrorHandler with
    | some k =>
      some
        { handler := HandlerPtr.user k
          argNumber := argNumber
          message := thMessage file line fmt args
          data := s.threadArgErrorHandlerData }
    | none =>
      some
        { handler := s.defaultArgErrorHandler
          argNumber := argNumber
          message := thMessage file line fmt args
          data := s.defaultArgErrorHandlerData }

/-- The built-in default argument-error handler: prints either
`$ Invalid argument N: msg` or, when `msg` is `NULL`, `$ Invalid argument N`,
then exits with status `-1`; modeled as the printed text and the status. -/
def defaultArgErrorHandlerFunction (argNumber : Int) (msg : Option String) :
    String × Int :=
  match msg with
  | some m =>
    (("$ Invalid argument ") ++ toString argNumber ++ (": ") ++ m ++ ("\n"), -1)
  | none => (("$ Invalid argument ") ++ toString argNumber ++ ("\n"), -1)

example :
    thMessage ("core.cpp") 42 ("tensor shape mismatch: %d vs %d")
        (FmtArg.int 3 :: FmtArg.int 5 :: [])
      = ("tensor shape mismatch: 3 vs 5 at core.cpp:42").data := by decide

/-! ## Allocation layer (`THAlloc`, `THRealloc`, `THFree`)

The underlying system services (`c10::alloc_cpu` and the C `realloc`) are
external collaborators; their results are supplied by a `SysHeap`
environment.  Each operation returns the value it would return (`Except`:
`error` means the function raised a fatal error through `_THError` and never
returned) together with the ordered trace of external calls it performed. -/

/-- An observable external action of the allocation layer. -/
inductive AllocEvent
  | sysAlloc (size : Int)
  | sysRealloc (ptr : Nat) (size : Int)
  | sysFree (ptr : Nat)
  | gcHook
  | fatal (msg : String)
deriving DecidableEq

/-- Results the underlying system heap would give: the return value of
`c10::alloc_cpu`, of the first `realloc` call, and of the `realloc` retried
after the GC hook ran (`none` models a `NULL` return, i.e. failure). -/
structure SysHeap where
  allocResult : Option Nat
  reallocFirst : Option Nat
  reallocRetry : Option Nat
deriving DecidableEq

/-- The message of `THError("$ Torch: invalid memory size -- maybe an
overflow?")`. -/
def invalidSizeMsg : String :=
  "$ Torch: invalid memory size -- maybe an overflow?"

/-- The message of the out-of-memory `THError` in `THRealloc`, whose `%d`
argument is `size/1073741824` (the requested size in gibibytes, in truncating
C integer division). -/
def oomMsg (size : Int) : String :=
  ("$ Torch: not enough memory: you tried to reallocate ")
    ++ String.mk (intChars (Int.tdiv size 1073741824)) ++ ("GB. Buy new RAM!")

/-- Model of `THAlloc`: a negative size raises a fatal error through the
error-reporting path; otherwise the call is delegated to `c10::alloc_cpu`. -/
def THAlloc (env : SysHeap) (size : Int) :
    Except String (Option Nat) × List AllocEvent :=
  if size < 0 then
    (Except.error invalidSizeMsg, AllocEvent.fatal invalidSizeMsg :: [])
  else (Except.ok env.allocResult, AllocEvent.sysAlloc size :: [])

/-- Model of `THFree`: unconditionally forward to the system `free`. -/
def THFree (ptr : Nat) : List AllocEvent :=
  AllocEvent.sysFree ptr :: []

/-- Model of `THRealloc`.  `gcRegistered` is whether `torchGCFunction` is
non-`NULL` on the calling thread.  A `NULL` pointer delegates to `THAlloc`;
size zero frees the pointer and returns `NULL`; a negative size raises a
fatal error; otherwise the system `realloc` is attempted, on failure the GC
hook (when registered) is invoked and the `realloc` retried once, and a
still-failing retry raises the out-of-memory fatal error. -/
def THRealloc (env : SysHeap) (gcRegistered : Bool) (ptr : Option Nat)
    (size : Int) : Except String (Option Nat) × List AllocEvent :=
  match ptr with
  | none => THAlloc env size
  | some p =>
    if size = 0 then (Except.ok none, THFree p)
    else if size < 0 then
      (Except.error invalidSizeMsg, AllocEvent.fatal invalidSizeMsg :: [])
    else
      match env.reallocFirst with
      | some q => (Except.ok (some q), AllocEvent.sysRealloc p size :: [])
      | none =>
        if gcRegistered then
          match env.reallocRetry with
          | some q =>
            (Except.ok (some q),
             AllocEvent.sysRealloc p size :: AllocEvent.gcHook
               :: AllocEvent.sysRealloc p size :: [])
          | none =>
            (Except.error (oomMsg size),
             AllocEvent.sysRealloc p size :: AllocEvent.gcHook
               :: AllocEvent.sysRealloc p size
               :: AllocEvent.fatal (oomMsg size) :: [])
        else
          (Except.error (oomMsg size),
           AllocEvent.sysRealloc p size :: AllocEvent.fatal (oomMsg size) :: [])

/-! ## Descriptive buffer formatter (`_THSizeDesc`)

`THDescBuff` is a struct holding a `char str[TH_DESC_BUFF_LEN]` buffer; the
formatter writes `[d0 x d1 x ... x dn]` into it with repeated bounded
`snprintf` calls, replacing the tail by `"...]"` when the text reaches the
capacity.  `TH_DESC_BUFF_LEN` is `64` (from `THGeneral.h`). -/

/-- The capacity of `THDescBuff.str` (`TH_DESC_BUFF_LEN` in `THGeneral.h`). -/
def TH_DESC_BUFF_LEN : Nat := 64

/-- The separator written between dimension sizes. -/
def sepChars : List Char := (" x ").data

/-- The loop of `_THSizeDesc` over the remaining dimension sizes: for each
one, break if `n` has reached `L`, else `snprintf` the size at offset `n`
with bound `L-n`, and when it is not the last one also `snprintf` the
separator.  Returns the buffer and the final `n`. -/
def sizeDescLoop (L : Nat) : List Int → List Char → Nat → List Char × Nat
  | [], buf, n => (buf, n)
  | d :: rest, buf, n =>
    if L ≤ n then (buf, n)
    else
      let r1 := snprintfAt buf n ((L : Int) - (n : Int)) (intChars d)
      match rest with
      | [] => (r1.1, n + r1.2)
      | _ :: _ =>
        let r2 := snprintfAt r1.1 (n + r1.2)
          ((L : Int) - ((n + r1.2 : Nat) : Int)) sepChars
        sizeDescLoop L rest r2.1 (n + r1.2 + r2.2)

/-- The buffer `_THSizeDesc` returns: write `"["`, loop over the dimension
sizes, then either close with `"]"` (when `n < L-2`) or overwrite the last
four characters with `"...]"`. -/
def sizeDescBuf (dims : List Int) : List Char :=
  let L := TH_DESC_BUFF_LEN
  let r0 := snprintfAt [] 0 ((L : Int) - (0 : Int)) (("[").data)
  let r := sizeDescLoop L dims r0.1 r0.2
  if r.2 < L - 2 then
    (snprintfAt r.1 r.2 ((L : Int) - (r.2 : Int)) (("]").data)).1
  else (snprintfAt r.1 (L - 5) 5 (("...]").data)).1

/-- The C string `_THSizeDesc` leaves in the descriptive buffer. -/
def _THSizeDesc (dims : List Int) : List Char :=
  readCString (sizeDescBuf dims)

/-- The untruncated body of the rendering: the dimension sizes in decimal,
joined by the separator. -/
def renderBody (dims : List Int) : List Char :=
  (List.intersperse sepChars (dims.map intChars)).flatten

/-- The untruncated full rendering `[d0 x d1 x ... x dn]`. -/
def sizeRender (dims : List Int) : List Char :=
  ('[' :: renderBody dims) ++ ("]").data

example : _THSizeDesc (2 :: 3 :: 4 :: []) = ("[2 x 3 x 4]").data := by decide

example : _THSizeDesc [] = ("[]").data := by decide

example :
    _THSizeDesc (1111111111 :: 2222222222 :: 3333333333 :: 4444444444
        :: 5555555555 :: 6666666666 :: [])
      = ("[1111111111 x 2222222222 x 3333333333 x 4444444444 x 555555...]").data := by
  decide

example :
    (_THSizeDesc (1111111111 :: 2222222222 :: 3333333333 :: 4444444444
        :: 5555555555 :: 6666666666 :: [])).length = 63 := by decide

/-! ## Lemmas about the buffer model -/

lemma writeAt_of_le (buf : List Char) (pos : Nat) (s : List Char)
    (h : pos ≤ buf.length) :
    writeAt buf pos s = buf.take pos ++ s ++ buf.drop (pos + s.length) := by
  unfold writeAt
  have h0 : pos - buf.length = 0 := by omega
  rw [h0]
  simp

lemma writeAt_of_ge (buf : List Char) (pos : Nat) (s : List Char)
    (h : buf.length ≤ pos) :
    writeAt buf pos s = buf ++ List.replicate (pos - buf.length) nulChar ++ s := by
  unfold writeAt
  rw [List.take_of_length_le (by simp; omega),
    List.drop_eq_nil_of_le (by omega)]
  simp

lemma snprintfAt_write (buf : List Char) (pos : Nat) (sz : Int) (s : List Char)
    (h1 : (s.length : Int) < sz) (hpos : pos ≤ buf.length) :
    snprintfAt buf pos sz s
      = (buf.take pos ++ (s ++ [nulChar]) ++ buf.drop (pos + (s.length + 1)),
         s.length) := by
  have h0 : 0 < sz := by omega
  rw [snprintfAt, if_pos h0, List.take_of_length_le (by omega),
    writeAt_of_le _ _ _ hpos]
  simp

lemma snprintfAt_append (p s : List Char) (sz : Int)
    (h1 : (s.length : Int) < sz) :
    snprintfAt (p ++ [nulChar]) p.length sz s
      = (p ++ s ++ [nulChar], s.length) := by
  rw [snprintfAt_write _ _ _ _ h1 (by simp), List.take_left,
    List.drop_eq_nil_of_le (by simp)]
  simp

lemma snprintfAt_append_trunc (p s : List Char) (sz : Int) (h0 : 0 < sz) :
    snprintfAt (p ++ [nulChar]) p.length sz s
      = (p ++ s.take (sz.toNat - 1) ++ [nulChar], s.length) := by
  rw [snprintfAt, if_pos h0, writeAt_of_le _ _ _ (by simp), List.take_left,
    List.drop_eq_nil_of_le (by simp)]
  simp

lemma snprintfAt_zero (buf : List Char) (pos : Nat) (s : List Char) :
    snprintfAt buf pos 0 s = (buf, s.length) := by
  simp [snprintfAt]

lemma snprintfAt_neg (buf : List Char) (pos : Nat) (sz : Int) (s : List Char)
    (h : sz < 0) :
    snprintfAt buf pos sz s = (writeAt buf pos (s ++ [nulChar]), s.length) := by
  have h1 : ¬ 0 < sz := by omega
  have h2 : ¬ sz = 0 := by omega
  simp [snprintfAt, h1, h2]

lemma readCString_append (q r : List Char) (hq : nulChar ∉ q) :
    readCString (q ++ nulChar :: r) = q := by
  induction q with
  | nil => simp [readCString]
  | cons a as ih =>
    have ha : a ≠ nulChar := fun h => hq (by simp [h])
    rw [List.cons_append, readCString,
      List.takeWhile_cons_of_pos (by simp [ha])]
    have := ih (fun hm => hq (List.mem_cons_of_mem _ hm))
    rw [readCString] at this
    rw [this]

lemma readCString_length_le (q r : List Char) :
    (readCString (q ++ nulChar :: r)).length ≤ q.length := by
  induction q with
  | nil => simp [readCString]
  | cons a as ih =>
    rw [List.cons_append, readCString, List.takeWhile_cons]
    rw [readCString] at ih
    split
    · simpa using ih
    · simp

lemma getElem?_append_nul (q r : List Char) :
    (q ++ nulChar :: r)[q.length]? = some nulChar := by
  rw [List.getElem?_append_right (le_refl _)]
  simp

lemma digitChar_ne_nul (k : Nat) (hk : k < 10) :
    Char.ofNat (48 + k) ≠ nulChar := by
  interval_cases k <;> decide

lemma natDecimalAux_no_nul (fuel n : Nat) : nulChar ∉ natDecimalAux fuel n := by
  induction fuel generalizing n with
  | zero => simp [natDecimalAux]
  | succ f ih =>
    rw [natDecimalAux]
    split
    · intro hm
      have h := List.mem_singleton.mp hm
      exact digitChar_ne_nul n (by omega) h.symm
    · intro hm
      rcases List.mem_append.mp hm with h | h
      · exact ih _ h
      · have h := List.mem_singleton.mp h
        exact digitChar_ne_nul (n % 10) (Nat.mod_lt _ (by omega)) h.symm

lemma natDecimal_no_nul (n : Nat) : nulChar ∉ natDecimal n :=
  natDecimalAux_no_nul _ _

lemma intChars_no_nul (i : Int) : nulChar ∉ intChars i := by
  unfold intChars
  split
  · intro hm
    rcases List.mem_cons.mp hm with h | h
    · exact absurd h.symm (by decide)
    · exact natDecimal_no_nul _ h
  · exact natDecimal_no_nul _

lemma sepChars_no_nul : nulChar ∉ sepChars := by decide

lemma renderBody_nil : renderBody [] = [] := by
  simp [renderBody]

lemma renderBody_single (d : Int) : renderBody (d :: []) = intChars d := by
  simp [renderBody, List.intersperse]

lemma renderBody_cons_cons (a b : Int) (t : List Int) :
    renderBody (a :: b :: t) = intChars a ++ sepChars ++ renderBody (b :: t) := by
  simp [renderBody, List.intersperse]

/-- The buffer state after a write has been truncated: some NUL-free text
occupies positions `0` to `L-2` and the terminator sits at position `L-1`. -/
def TruncState (L : Nat) (buf : List Char) : Prop :=
  ∃ p r, buf = p ++ nulChar :: r ∧ p.length = L - 1 ∧ nulChar ∉ p

lemma sizeDescLoop_break (L : Nat) (dims : List Int) (buf : List Char)
    (n : Nat) (h : L ≤ n) : sizeDescLoop L dims buf n = (buf, n) := by
  cases dims with
  | nil => rfl
  | cons d rest => simp [sizeDescLoop, h]

/-- Invariant of the `_THSizeDesc` loop: starting from a NUL-terminated
buffer holding NUL-free text `p` of length `n < L`, the loop either appends
exactly the rendering of the remaining dimension sizes and stays strictly
below the capacity, or ends in the truncated state with `n` at or beyond the
capacity. -/
lemma sizeDescLoop_spec (L : Nat) :
    ∀ (dims : List Int) (p : List Char) (n : Nat),
      p.length = n → nulChar ∉ p → n < L →
      (∃ q, sizeDescLoop L dims (p ++ [nulChar]) n
              = (p ++ q ++ [nulChar], n + q.length) ∧
            nulChar ∉ q ∧ n + q.length < L ∧ q = renderBody dims)
      ∨ (TruncState L (sizeDescLoop L dims (p ++ [nulChar]) n).1 ∧
         L ≤ (sizeDescLoop L dims (p ++ [nulChar]) n).2) := by
  intro dims
  induction dims with
  | nil =>
    intro p n hlen hnn hlt
    left
    refine ⟨[], ?_, by simp, by simpa, renderBody_nil.symm⟩
    simp [sizeDescLoop]
  | cons d rest ih =>
    intro p n hlen hnn hlt
    have hnb : ¬ L ≤ n := by omega
    by_cases hfit : ((intChars d).length : Int) < (L : Int) - (n : Int)
    · -- the write of the dimension size fits
      have hw := snprintfAt_append p (intChars d) ((L : Int) - (n : Int)) hfit
      rw [hlen] at hw
      cases rest with
      | nil =>
        left
        refine ⟨intChars d, ?_, intChars_no_nul d, by omega,
          (renderBody_single d).symm⟩
        simp only [sizeDescLoop, hnb, if_false, hw]
      | cons e rest1 =>
        have hlen2 : (p ++ intChars d).length = n + (intChars d).length := by
          simp [hlen]
        by_cases hsep : ((sepChars.length : Nat) : Int)
            < (L : Int) - ((n + (intChars d).length : Nat) : Int)
        · -- the separator write also fits
          have hw2 := snprintfAt_append (p ++ intChars d) sepChars
            ((L : Int) - ((n + (intChars d).length : Nat) : Int)) hsep
          rw [hlen2] at hw2
          have hrec := ih (p ++ intChars d ++ sepChars)
            (n + (intChars d).length + sepChars.length)
            (by simp [hlen]; omega)
            (by
              intro hm
              rcases List.mem_append.mp hm with hm1 | hm1
              · rcases List.mem_append.mp hm1 with hm2 | hm2
                · exact hnn hm2
                · exact intChars_no_nul d hm2
              · exact sepChars_no_nul hm1)
            (by omega)
          have hunf : sizeDescLoop L (d :: e :: rest1) (p ++ [nulChar]) n
              = sizeDescLoop L (e :: rest1)
                  (p ++ intChars d ++ sepChars ++ [nulChar])
                  (n + (intChars d).length + sepChars.length) := by
            simp only [sizeDescLoop, hnb, if_false, hw, hw2]
            try omega
          rw [hunf]
          rcases hrec with ⟨q, hq1, hq2, hq3, hq4⟩ | ⟨ht, hge⟩
          · left
            refine ⟨intChars d ++ sepChars ++ q, ?_, ?_, by simp; omega, ?_⟩
            · rw [hq1, Prod.mk.injEq]
              refine ⟨by simp, by simp <;> omega⟩
            · intro hm
              rcases List.mem_append.mp hm with hm1 | hm1
              · rcases List.mem_append.mp hm1 with hm2 | hm2
                · exact intChars_no_nul d hm2
                · exact sepChars_no_nul hm2
              · exact hq2 hm1
            · rw [renderBody_cons_cons, hq4]
          · right
            exact ⟨ht, hge⟩
        · -- the separator write is truncated: the buffer is now full
          have h0 : (0 : Int)
              < (L : Int) - ((n + (intChars d).length : Nat) : Int) := by
            omega
          have hw2 := snprintfAt_append_trunc (p ++ intChars d) sepChars
            ((L : Int) - ((n + (intChars d).length : Nat) : Int)) h0
          rw [hlen2] at hw2
          have hunf : sizeDescLoop L (d :: e :: rest1) (p ++ [nulChar]) n
              = sizeDescLoop L (e :: rest1)
                  (p ++ intChars d
                    ++ sepChars.take
                      (((L : Int)
                        - ((n + (intChars d).length : Nat) : Int)).toNat - 1)
                    ++ [nulChar])
                  (n + (intChars d).length + sepChars.length) := by
            simp only [sizeDescLoop, hnb, if_false, hw, hw2]
          rw [hunf, sizeDescLoop_break _ _ _ _ (by have h3 : sepChars.length = 3 := rfl; omega)]
          right
          refine ⟨⟨p ++ intChars d
              ++ sepChars.take
                (((L : Int)
                  - ((n + (intChars d).length : Nat) : Int)).toNat - 1),
              [], by simp, ?_, ?_⟩, by have h3 : sepChars.length = 3 := rfl; omega⟩
          · have hst : (sepChars.take
                (((L : Int)
                  - ((n + (intChars d).length : Nat) : Int)).toNat - 1)).length
                = ((L : Int)
                  - ((n + (intChars d).length : Nat) : Int)).toNat - 1 := by
              rw [List.length_take]
              have h3 : sepChars.length = 3 := rfl
              omega
            simp [hst, hlen]
            omega
          · intro hm
            rcases List.mem_append.mp hm with hm1 | hm1
            · rcases List.mem_append.mp hm1 with hm2 | hm2
              · exact hnn hm2
              · exact intChars_no_nul d hm2
            · exact sepChars_no_nul (List.take_subset _ _ hm1)
    · -- the write of the dimension size is truncated: the buffer is now full
      have h0 : (0 : Int) < (L : Int) - (n : Int) := by omega
      have hw := snprintfAt_append_trunc p (intChars d)
        ((L : Int) - (n : Int)) h0
      rw [hlen] at hw
      have htk : (List.take (((L : Int) - (n : Int)).toNat - 1)
          (intChars d)).length = ((L : Int) - (n : Int)).toNat - 1 := by
        rw [List.length_take]
        omega
      have hplen : (p ++ List.take (((L : Int) - (n : Int)).toNat - 1)
          (intChars d)).length = L - 1 := by
        simp [hlen, htk]
        omega
      have hpnn : nulChar ∉ p ++ List.take (((L : Int) - (n : Int)).toNat - 1)
          (intChars d) := by
        intro hm
        rcases List.mem_append.mp hm with hm1 | hm1
        · exact hnn hm1
        · exact intChars_no_nul d (List.take_subset _ _ hm1)
      cases rest with
      | nil =>
        have hunf : sizeDescLoop L (d :: []) (p ++ [nulChar]) n
            = (p ++ List.take (((L : Int) - (n : Int)).toNat - 1) (intChars d)
                ++ [nulChar], n + (intChars d).length) := by
          simp only [sizeDescLoop, hnb, if_false, hw]
        rw [hunf]
        right
        exact ⟨⟨_, [], by simp, hplen, hpnn⟩, by omega⟩
      | cons e rest1 =>
        -- the separator write happens at or beyond the end of the buffer
        by_cases hz : (L : Int) - ((n + (intChars d).length : Nat) : Int) = 0
        · have hunf : sizeDescLoop L (d :: e :: rest1) (p ++ [nulChar]) n
              = sizeDescLoop L (e :: rest1)
                  (p ++ List.take (((L : Int) - (n : Int)).toNat - 1)
                    (intChars d) ++ [nulChar])
                  (n + (intChars d).length + sepChars.length) := by
            simp only [sizeDescLoop, hnb, if_false, hw, hz, snprintfAt_zero]
          rw [hunf, sizeDescLoop_break _ _ _ _ (by have h3 : sepChars.length = 3 := rfl; omega)]
          right
          exact ⟨⟨_, [], by simp, hplen, hpnn⟩, by have h3 : sepChars.length = 3 := rfl; omega⟩
        · have hneg : (L : Int) - ((n + (intChars d).length : Nat) : Int) < 0 := by
            omega
          have hbl : (p ++ List.take (((L : Int) - (n : Int)).toNat - 1)
              (intChars d) ++ [nulChar]).length ≤ n + (intChars d).length := by
            simp [hlen, htk]
            omega
          have hw2 := snprintfAt_neg
            (p ++ List.take (((L : Int) - (n : Int)).toNat - 1) (intChars d)
              ++ [nulChar])
            (n + (intChars d).length)
            ((L : Int) - ((n + (intChars d).length : Nat) : Int))
            sepChars hneg
          rw [writeAt_of_ge _ _ _ hbl] at hw2
          have hunf : sizeDescLoop L (d :: e :: rest1) (p ++ [nulChar]) n
              = sizeDescLoop L (e :: rest1)
                  ((p ++ List.take (((L : Int) - (n : Int)).toNat - 1)
                      (intChars d) ++ [nulChar])
                    ++ List.replicate
                      ((n + (intChars d).length)
                        - (p ++ List.take (((L : Int) - (n : Int)).toNat - 1)
                            (intChars d) ++ [nulChar]).length) nulChar
                    ++ (sepChars ++ [nulChar]))
                  (n + (intChars d).length + sepChars.length) := by
            simp only [sizeDescLoop, hnb, if_false, hw, hw2]
          rw [hunf, sizeDescLoop_break _ _ _ _ (by have h3 : sepChars.length = 3 := rfl; omega)]
          right
          refine ⟨⟨p ++ List.take (((L : Int) - (n : Int)).toNat - 1)
              (intChars d),
              List.replicate
                ((n + (intChars d).length)
                  - (p ++ List.take (((L : Int) - (n : Int)).toNat - 1)
                      (intChars d) ++ [nulChar]).length) nulChar
                ++ (sepChars ++ [nulChar]),
              ?_, hplen, hpnn⟩,
            by have h3 : sepChars.length = 3 := rfl; omega⟩
          simp


/-- The effect of the final `snprintf(str+L-5, 5, "...]")` on a buffer whose
NUL-free text reaches position 62 or beyond: the resulting C string is the
first 59 characters of the text followed by `"...]"`, of length exactly 63. -/
lemma sizeDescFinal_trunc (P R : List Char) (hP : 62 ≤ P.length)
    (hnn : nulChar ∉ P) :
    ∃ J, (snprintfAt (P ++ nulChar :: R) 59 5
            ('.' :: '.' :: '.' :: ']' :: [])).1
          = (P.take 59 ++ ('.' :: '.' :: '.' :: ']' :: [])) ++ nulChar :: J
      ∧ nulChar ∉ P.take 59 ++ ('.' :: '.' :: '.' :: ']' :: [])
      ∧ (P.take 59 ++ ('.' :: '.' :: '.' :: ']' :: [])).length = 63 := by
  refine ⟨(P ++ nulChar :: R).drop 64, ?_, ?_, ?_⟩
  · rw [snprintfAt_write _ _ _ _ (by decide) (by simp; omega)]
    rw [List.take_append_of_le_length (by omega)]
    simp
  · intro hm
    rcases List.mem_append.mp hm with h | h
    · exact hnn (List.take_subset _ _ h)
    · exact absurd h (by decide)
  · rw [List.length_append, List.length_take]
    simp
    omega

/-- Full characterization of the buffer `_THSizeDesc` produces: it holds a
NUL-terminated NUL-free text of length at most 63, which is either the exact
rendering of the dimension sizes or a 63-character text ending in `"...]"`. -/
lemma sizeDescBuf_spec (dims : List Int) :
    ∃ out J, sizeDescBuf dims = out ++ nulChar :: J
      ∧ nulChar ∉ out
      ∧ out.length ≤ 63
      ∧ (out = sizeRender dims
         ∨ (out.length = 63
            ∧ ∃ q, out = q ++ ('.' :: '.' :: '.' :: ']' :: []))) := by
  have hr1 : (snprintfAt [] 0 ((TH_DESC_BUFF_LEN : Int) - 0) ('[' :: [])).1
      = ('[' :: []) ++ [nulChar] := by decide
  have hr2 : (snprintfAt [] 0 ((TH_DESC_BUFF_LEN : Int) - 0) ('[' :: [])).2
      = 1 := by decide
  have hloop := sizeDescLoop_spec TH_DESC_BUFF_LEN dims ('[' :: []) 1 rfl
    (by decide) (by decide)
  rcases hloop with ⟨q, hq1, hq2, hq3, hq4⟩ | ⟨⟨Pt, Rt, hsh, hlenT, hnnT⟩, hge⟩
  · -- the loop appended the full rendering of the dimension sizes
    have hq1a : (sizeDescLoop TH_DESC_BUFF_LEN dims (('[' :: []) ++ [nulChar])
        1).1 = ('[' :: []) ++ q ++ [nulChar] := by rw [hq1]
    have hq1b : (sizeDescLoop TH_DESC_BUFF_LEN dims (('[' :: []) ++ [nulChar])
        1).2 = 1 + q.length := by rw [hq1]
    by_cases h62 : 1 + q.length < TH_DESC_BUFF_LEN - 2
    · -- the closing bracket fits: the exact rendering
      refine ⟨('[' :: q) ++ (']' :: []), [], ?_, ?_, ?_, Or.inl ?_⟩
      · rw [sizeDescBuf, hr1, hr2, hq1a, hq1b, if_pos h62]
        have hb : (('[' :: []) ++ q ++ [nulChar]) = ('[' :: q) ++ [nulChar] := by
          simp
        have hpos : (1 + q.length) = ('[' :: q).length := by
          simp
          omega
        rw [hb, hpos, snprintfAt_append _ _ _ (by
          have h2 : ('[' :: q).length = q.length + 1 := by simp
          have h64 : TH_DESC_BUFF_LEN = 64 := rfl
          rw [h64] at h62
          rw [h2]
          simp
          omega)]
      · intro hm
        rcases List.mem_append.mp hm with h | h
        · rcases List.mem_cons.mp h with h1 | h1
          · exact absurd h1.symm (by decide)
          · exact hq2 h1
        · exact absurd h (by decide)
      · have h64 : TH_DESC_BUFF_LEN = 64 := rfl
        rw [h64] at h62
        simp
        omega
      · rw [sizeRender, hq4]
    · -- the closing bracket does not fit: truncated with "...]"
      have hP : 62 ≤ ('[' :: q).length := by
        have h64 : TH_DESC_BUFF_LEN = 64 := rfl
        rw [h64] at h62
        simp
        omega
      rcases sizeDescFinal_trunc ('[' :: q) [] hP (by
        intro hm
        rcases List.mem_cons.mp hm with h1 | h1
        · exact absurd h1.symm (by decide)
        · exact hq2 h1) with ⟨J, hj1, hj2, hj3⟩
      refine ⟨('[' :: q).take 59 ++ ('.' :: '.' :: '.' :: ']' :: []), J, ?_,
        hj2, by omega, Or.inr ⟨hj3, _, rfl⟩⟩
      have hb : (('[' :: []) ++ q ++ [nulChar]) = ('[' :: q) ++ nulChar :: [] := by
        simp
      rw [sizeDescBuf, hr1, hr2, hq1a, hq1b, if_neg h62,
        show TH_DESC_BUFF_LEN - 5 = 59 from rfl, hb, hj1]
  · -- the loop itself truncated
    rcases sizeDescFinal_trunc Pt Rt (by
      have h64 : TH_DESC_BUFF_LEN = 64 := rfl
      rw [h64] at hlenT
      omega) hnnT with ⟨J, hj1, hj2, hj3⟩
    have hcond : ¬ (sizeDescLoop TH_DESC_BUFF_LEN dims (('[' :: [])
        ++ [nulChar]) 1).2 < TH_DESC_BUFF_LEN - 2 := by
      have h64 : TH_DESC_BUFF_LEN = 64 := rfl
      rw [h64] at hge ⊢
      omega
    refine ⟨Pt.take 59 ++ ('.' :: '.' :: '.' :: ']' :: []), J, ?_, hj2,
      by omega, Or.inr ⟨hj3, _, rfl⟩⟩
    rw [sizeDescBuf, hr1, hr2, if_neg hcond,
      show TH_DESC_BUFF_LEN - 5 = 59 from rfl, hsh, hj1]

/-! ## Claim theorems: allocation layer -/

/-- C1: for every non-null pointer and positive size, when the system
reallocation fails: with a GC hook registered the hook runs exactly once and
the reallocation is attempted exactly twice (the original call and one
retry), the fatal out-of-memory error being raised only if the retry also
fails; with no hook registered there is no retry and the fatal error is
raised immediately; and on this path `THRealloc` never returns a null
result without raising the fatal error. -/
theorem th_realloc_oom_c1 (env : SysHeap) (gc : Bool) (p : Nat) (size : Int)
    (hpos : 0 < size) (hfail : env.reallocFirst = none) :
    (gc = true →
       ((THRealloc env gc (some p) size).2.count AllocEvent.gcHook = 1
        ∧ (THRealloc env gc (some p) size).2.count
            (AllocEvent.sysRealloc p size) = 2
        ∧ (env.reallocRetry = none →
             (THRealloc env gc (some p) size).1
               = Except.error (oomMsg size))
        ∧ (∀ q, env.reallocRetry = some q →
             (THRealloc env gc (some p) size).1 = Except.ok (some q))))
    ∧ (gc = false →
       ((THRealloc env gc (some p) size).2.count AllocEvent.gcHook = 0
        ∧ (THRealloc env gc (some p) size).2.count
            (AllocEvent.sysRealloc p size) = 1
        ∧ (THRealloc env gc (some p) size).1 = Except.error (oomMsg size)))
    ∧ (THRealloc env gc (some p) size).1 ≠ Except.ok none := by
  have hz : ¬ size = 0 := by omega
  have hneg : ¬ size < 0 := by omega
  cases gc with
  | true =>
    cases hre : env.reallocRetry with
    | none =>
      simp [THRealloc, hz, hneg, hfail, hre, List.count_cons]
    | some q =>
      simp [THRealloc, hz, hneg, hfail, hre, List.count_cons]
  | false =>
    simp [THRealloc, hz, hneg, hfail, List.count_cons]

/-- Witness for C1: a concrete heap whose reallocation fails both times,
with a registered GC hook. -/
theorem th_realloc_oom_c1_witness :
    (THRealloc (SysHeap.mk (some 9) none none) true (some 5) 4).1
      ≠ Except.ok none :=
  (th_realloc_oom_c1 (SysHeap.mk (some 9) none none) true 5 4 (by decide)
    rfl).2.2

/-- C6: for every non-null pointer, `THRealloc` with size zero frees the
pointer, returns a null result, and raises no error on this path. -/
theorem th_realloc_zero_c6 (env : SysHeap) (gc : Bool) (p : Nat) :
    THRealloc env gc (some p) 0
      = (Except.ok none, AllocEvent.sysFree p :: [])
    ∧ ∀ m, AllocEvent.fatal m ∉ (THRealloc env gc (some p) 0).2 := by
  constructor
  · simp [THRealloc, THFree]
  · intro m
    simp [THRealloc, THFree]

/-- C7: for every negative size, `THAlloc` raises the fatal invalid-size
error through the error-reporting path and never calls the underlying
system allocator. -/
theorem th_alloc_neg_c7 (env : SysHeap) (size : Int) (h : size < 0) :
    THAlloc env size
      = (Except.error invalidSizeMsg, AllocEvent.fatal invalidSizeMsg :: [])
    ∧ ∀ sz, AllocEvent.sysAlloc sz ∉ (THAlloc env size).2 := by
  constructor
  · simp [THAlloc, h]
  · intro sz
    simp [THAlloc, h]

/-- Witness for C7 at size `-1`. -/
theorem th_alloc_neg_c7_witness :
    THAlloc (SysHeap.mk (some 1) none none) (-1)
      = (Except.error invalidSizeMsg, AllocEvent.fatal invalidSizeMsg :: []) :=
  (th_alloc_neg_c7 (SysHeap.mk (some 1) none none) (-1) (by decide)).1

/-- C10: `THRealloc` with a null pointer and size zero takes the allocate
path: it returns exactly what `THAlloc 0` returns (the delegation to the
underlying allocator for zero bytes), performs the system-allocation call,
and never frees anything; the null-pointer rule takes precedence over the
zero-size rule. -/
theorem th_realloc_null_c10 (env : SysHeap) (gc : Bool) :
    THRealloc env gc none 0 = THAlloc env 0
    ∧ THAlloc env 0 = (Except.ok env.allocResult, AllocEvent.sysAlloc 0 :: [])
    ∧ ∀ p, AllocEvent.sysFree p ∉ (THRealloc env gc none 0).2 := by
  refine ⟨rfl, ?_, ?_⟩
  · simp [THAlloc]
  · intro p
    simp [THRealloc, THAlloc]

/-! ## Claim theorems: handler registration and dispatch -/

/-- C2: every error report and argument-check failure dispatches to the
thread-local override when one is registered, else to the process-wide
default, together with the correspondingly registered opaque data; and the
error-handler lookup and the argument-error-handler lookup depend only on
their own, separate registration state. -/
theorem th_dispatch_c2 :
    (∀ (s : THState) (k : Nat) (file : String) (line : Int) (fmt : String)
        (args : List FmtArg),
       s.threadErrorHandler = some k →
       (_THError s file line fmt args).handler = HandlerPtr.user k
       ∧ (_THError s file line fmt args).data = s.threadErrorHandlerData)
    ∧ (∀ (s : THState) (file : String) (line : Int) (fmt : String)
        (args : List FmtArg),
       s.threadErrorHandler = none →
       (_THError s file line fmt args).handler = s.defaultErrorHandler
       ∧ (_THError s file line fmt args).data = s.defaultErrorHandlerData)
    ∧ (∀ (s : THState) (k : Nat) (file : String) (line : Int)
        (argNumber : Int) (fmt : String) (args : List FmtArg),
       s.threadArgErrorHandler = some k →
       _THArgCheck s file line false argNumber fmt args
         = some (ArgDispatch.mk (HandlerPtr.user k) argNumber
             (thMessage file line fmt args) s.threadArgErrorHandlerData))
    ∧ (∀ (s : THState) (file : String) (line : Int) (argNumber : Int)
        (fmt : String) (args : List FmtArg),
       s.threadArgErrorHandler = none →
       _THArgCheck s file line false argNumber fmt args
         = some (ArgDispatch.mk s.defaultArgErrorHandler argNumber
             (thMessage file line fmt args) s.defaultArgErrorHandlerData))
    ∧ (∀ (s t : THState) (file : String) (line : Int) (fmt : String)
        (args : List FmtArg),
       s.threadErrorHandler = t.threadErrorHandler →
       s.threadErrorHandlerData = t.threadErrorHandlerData →
       s.defaultErrorHandler = t.defaultErrorHandler →
       s.defaultErrorHandlerData = t.defaultErrorHandlerData →
       _THError s file line fmt args = _THError t file line fmt args)
    ∧ (∀ (s t : THState) (file : String) (line : Int) (c : Bool)
        (argNumber : Int) (fmt : String) (args : List FmtArg),
       s.threadArgErrorHandler = t.threadArgErrorHandler →
       s.threadArgErrorHandlerData = t.threadArgErrorHandlerData →
       s.defaultArgErrorHandler = t.defaultArgErrorHandler →
       s.defaultArgErrorHandlerData = t.defaultArgErrorHandlerData →
       _THArgCheck s file line c argNumber fmt args
         = _THArgCheck t file line c argNumber fmt args) := by
  refine ⟨?_, ?_, ?_, ?_, ?_, ?_⟩
  · intro s k file line fmt args hk
    simp [_THError, hk]
  · intro s file line fmt args hk
    simp [_THError, hk]
  · intro s k file line argNumber fmt args hk
    simp [_THArgCheck, hk]
  · intro s file line argNumber fmt args hk
    simp [_THArgCheck, hk]
  · intro s t file line fmt args h1 h2 h3 h4
    simp [_THError, h1, h2, h3, h4]
  · intro s t file line c argNumber fmt args h1 h2 h3 h4
    cases c with
    | true => simp [_THArgCheck]
    | false => simp [_THArgCheck, h1, h2, h3, h4]

/-- Witness for C2: a thread-local override `5` with data `7` wins over the
default. -/
theorem th_dispatch_c2_witness :
    (_THError (THState.mk (HandlerPtr.user 3) 1 (some 5) 7 HandlerPtr.builtin
        0 none 0) ("f.c") 1 ("boom") []).handler = HandlerPtr.user 5
    ∧ (_THError (THState.mk (HandlerPtr.user 3) 1 (some 5) 7
        HandlerPtr.builtin 0 none 0) ("f.c") 1 ("boom") []).data = 7 :=
  th_dispatch_c2.1 (THState.mk (HandlerPtr.user 3) 1 (some 5) 7
    HandlerPtr.builtin 0 none 0) 5 ("f.c") 1 ("boom") [] rfl

/-- C8 counterexample: the claim says resetting the default handler with an
absent handler preserves the associated data, but the source stores the
passed data word unconditionally: starting from default data `1` and calling
`THSetDefaultErrorHandler` with `NULL` and data `0`, the handler is reset to
the built-in one yet the stored data changes from `1` to `0`. -/
theorem th_set_default_c8_cex :
    (THSetDefaultErrorHandler (THState.mk HandlerPtr.builtin 1 none 0
        HandlerPtr.builtin 0 none 0) none 0).defaultErrorHandler
      = HandlerPtr.builtin
    ∧ (THSetDefaultErrorHandler (THState.mk HandlerPtr.builtin 1 none 0
        HandlerPtr.builtin 0 none 0) none 0).defaultErrorHandlerData
      ≠ (THState.mk HandlerPtr.builtin 1 none 0 HandlerPtr.builtin 0 none
          0).defaultErrorHandlerData := by
  decide

/-- C8 (amended): `THSetDefaultErrorHandler` with an absent handler resets
the process-wide default handler to the built-in behavior and with a present
handler installs it; in both cases the associated data is set to the data
argument of the call (not preserved), and no other registration state
changes. -/
theorem th_set_default_c8 (s : THState) (h : Option Nat) (d : Nat) :
    (THSetDefaultErrorHandler s h d).defaultErrorHandler
      = (match h with
         | some k => HandlerPtr.user k
         | none => HandlerPtr.builtin)
    ∧ (THSetDefaultErrorHandler s h d).defaultErrorHandlerData = d
    ∧ (THSetDefaultErrorHandler s h d).threadErrorHandler
      = s.threadErrorHandler
    ∧ (THSetDefaultErrorHandler s h d).threadErrorHandlerData
      = s.threadErrorHandlerData
    ∧ (THSetDefaultErrorHandler s h d).defaultArgErrorHandler
      = s.defaultArgErrorHandler
    ∧ (THSetDefaultErrorHandler s h d).defaultArgErrorHandlerData
      = s.defaultArgErrorHandlerData
    ∧ (THSetDefaultErrorHandler s h d).threadArgErrorHandler
      = s.threadArgErrorHandler
    ∧ (THSetDefaultErrorHandler s h d).threadArgErrorHandlerData
      = s.threadArgErrorHandlerData := by
  cases h <;> simp [THSetDefaultErrorHandler]

/-! ## Claim theorems: message construction -/

lemma snprintfAt_empty (s : List Char) (sz : Int) (h0 : 0 < sz) :
    snprintfAt [] 0 sz s = (s.take (sz.toNat - 1) ++ [nulChar], s.length) := by
  rw [snprintfAt, if_pos h0]
  unfold writeAt
  simp

/-- The location suffix `" at <file>:<line>"` as characters. -/
lemma locSuffix_eq (file : String) (line : Int) :
    formatArgs ((" at %s:%d").data)
        (FmtArg.str file :: FmtArg.int line :: [])
      = ' ' :: 'a' :: 't' :: ' ' :: (file.data ++ ':' :: (intChars line ++ [])) :=
  rfl

lemma locSuffix_no_nul (file : String) (line : Int)
    (hf : nulChar ∉ file.data) :
    nulChar ∉ formatArgs ((" at %s:%d").data)
      (FmtArg.str file :: FmtArg.int line :: []) := by
  rw [locSuffix_eq]
  intro hm
  rcases List.mem_cons.mp hm with h | hm
  · exact absurd h.symm (by decide)
  rcases List.mem_cons.mp hm with h | hm
  · exact absurd h.symm (by decide)
  rcases List.mem_cons.mp hm with h | hm
  · exact absurd h.symm (by decide)
  rcases List.mem_cons.mp hm with h | hm
  · exact absurd h.symm (by decide)
  rcases List.mem_append.mp hm with h | hm
  · exact hf h
  rcases List.mem_cons.mp hm with h | hm
  · exact absurd h.symm (by decide)
  rcases List.mem_append.mp hm with h | h
  · exact intChars_no_nul line h
  · exact absurd h (by simp)

/-- Evaluation of the 2048-character message buffer of `_THError` and
`_THArgCheck`: the body followed by as much of the location suffix as fits
when the body did not reach the bound, the truncated body otherwise. -/
lemma thMsgBuf_eq (file : String) (line : Int) (fmt : String)
    (args : List FmtArg) :
    thMsgBuf file line fmt args
      = (if (formatArgs fmt.data args).length < 2048 then
           formatArgs fmt.data args
             ++ (formatArgs ((" at %s:%d").data)
                  (FmtArg.str file :: FmtArg.int line :: [])).take
                 (2047 - (formatArgs fmt.data args).length)
             ++ [nulChar]
         else (formatArgs fmt.data args).take 2047 ++ [nulChar]) := by
  have he := snprintfAt_empty (formatArgs fmt.data args) 2048 (by omega)
  rw [thMsgBuf, he]
  by_cases h : (formatArgs fmt.data args).length < 2048
  · rw [if_pos h, if_pos h]
    have ht : (formatArgs fmt.data args).take ((2048 : Int).toNat - 1)
        = formatArgs fmt.data args := by
      apply List.take_of_length_le
      omega
    rw [ht]
    have hp := snprintfAt_append_trunc (formatArgs fmt.data args)
      (formatArgs ((" at %s:%d").data)
        (FmtArg.str file :: FmtArg.int line :: []))
      ((2048 : Int) - ((formatArgs fmt.data args).length : Int)) (by omega)
    rw [hp]
    have harith : ((2048 : Int)
        - ((formatArgs fmt.data args).length : Int)).toNat - 1
        = 2047 - (formatArgs fmt.data args).length := by
      omega
    rw [harith]
  · rw [if_neg h, if_neg h]
    have ht : ((2048 : Int).toNat - 1) = 2047 := by omega
    rw [ht]

/-- Unconditional capacity bound: the delivered message has printable length
at most 2047. -/
lemma thMessage_length_le (file : String) (line : Int) (fmt : String)
    (args : List FmtArg) :
    (thMessage file line fmt args).length ≤ 2047 := by
  rw [thMessage, thMsgBuf_eq]
  by_cases h : (formatArgs fmt.data args).length < 2048
  · rw [if_pos h]
    have hb := readCString_length_le (formatArgs fmt.data args
      ++ (formatArgs ((" at %s:%d").data)
           (FmtArg.str file :: FmtArg.int line :: [])).take
          (2047 - (formatArgs fmt.data args).length)) []
    rw [List.append_assoc] at hb ⊢
    refine le_trans hb ?_
    rw [List.length_append, List.length_take]
    omega
  · rw [if_neg h]
    have hb := readCString_length_le ((formatArgs fmt.data args).take 2047) []
    refine le_trans hb ?_
    rw [List.length_take]
    omega

/-- C3: error reporting builds one message in a buffer of capacity 2048: the
formatted body, then the suffix `" at <file>:<line>"` (as much of it as
fits) exactly when the body did not already exhaust the buffer, the body
truncated to 2047 characters otherwise; and under the built-in default
handler the example ("tensor shape mismatch: %d vs %d", 3, 5) at
core.cpp:42 prints `$ Error: tensor shape mismatch: 3 vs 5 at core.cpp:42`
and exits with the non-zero status `-1`. -/
theorem th_error_c3 :
    (∀ (file : String) (line : Int) (fmt : String) (args : List FmtArg),
       nulChar ∉ formatArgs fmt.data args → nulChar ∉ file.data →
       thMessage file line fmt args
         = (if (formatArgs fmt.data args).length < 2048 then
              formatArgs fmt.data args
                ++ (formatArgs ((" at %s:%d").data)
                     (FmtArg.str file :: FmtArg.int line :: [])).take
                    (2047 - (formatArgs fmt.data args).length)
            else (formatArgs fmt.data args).take 2047))
    ∧ (∀ (s : THState) (file : String) (line : Int) (fmt : String)
        (args : List FmtArg),
       (_THError s file line fmt args).message = thMessage file line fmt args)
    ∧ defaultErrorHandlerFunction (String.mk (thMessage ("core.cpp") 42
        ("tensor shape mismatch: %d vs %d")
        (FmtArg.int 3 :: FmtArg.int 5 :: [])))
      = (("$ Error: tensor shape mismatch: 3 vs 5 at core.cpp:42\n"), -1)
    ∧ ((-1 : Int) ≠ 0) := by
  refine ⟨?_, ?_, by decide, by decide⟩
  · intro file line fmt args hb hf
    rw [thMessage, thMsgBuf_eq]
    by_cases h : (formatArgs fmt.data args).length < 2048
    · rw [if_pos h, if_pos h]
      apply readCString_append
      intro hm
      rcases List.mem_append.mp hm with h1 | h1
      · exact hb h1
      · exact locSuffix_no_nul file line hf (List.take_subset _ _ h1)
    · rw [if_neg h, if_neg h]
      apply readCString_append
      intro hm
      exact hb (List.take_subset _ _ hm)
  · intro s file line fmt args
    cases hk : s.threadErrorHandler <;> simp [_THError, hk]

/-- Witness for C3 at the example input of the claim. -/
theorem th_error_c3_witness :
    thMessage ("core.cpp") 42 ("tensor shape mismatch: %d vs %d")
        (FmtArg.int 3 :: FmtArg.int 5 :: [])
      = (if (formatArgs (("tensor shape mismatch: %d vs %d").data)
              (FmtArg.int 3 :: FmtArg.int 5 :: [])).length < 2048 then
           formatArgs (("tensor shape mismatch: %d vs %d").data)
             (FmtArg.int 3 :: FmtArg.int 5 :: [])
             ++ (formatArgs ((" at %s:%d").data)
                  (FmtArg.str ("core.cpp") :: FmtArg.int 42 :: [])).take
                 (2047 - (formatArgs (("tensor shape mismatch: %d vs %d").data)
                     (FmtArg.int 3 :: FmtArg.int 5 :: [])).length)
         else (formatArgs (("tensor shape mismatch: %d vs %d").data)
             (FmtArg.int 3 :: FmtArg.int 5 :: [])).take 2047) :=
  th_error_c3.1 ("core.cpp") 42 ("tensor shape mismatch: %d vs %d")
    (FmtArg.int 3 :: FmtArg.int 5 :: []) (by decide) (by decide)

/-- C4: an argument check with a true condition performs no observable
action (`none`: no handler invocation, no state change) and returns; with a
false condition it builds the bounded 2048-character message with the same
location-suffix rule as error reporting and dispatches it, together with the
argument index, to the active argument-error handler, never returning to the
caller (`some` dispatch, never `none`). -/
theorem th_argcheck_c4 :
    (∀ (s : THState) (file : String) (line : Int) (argNumber : Int)
        (fmt : String) (args : List FmtArg),
       _THArgCheck s file line true argNumber fmt args = none)
    ∧ (∀ (s : THState) (file : String) (line : Int) (argNumber : Int)
        (fmt : String) (args : List FmtArg),
       _THArgCheck s file line false argNumber fmt args
         = some (match s.threadArgErrorHandler with
                 | some k => ArgDispatch.mk (HandlerPtr.user k) argNumber
                     (thMessage file line fmt args) s.threadArgErrorHandlerData
                 | none => ArgDispatch.mk s.defaultArgErrorHandler argNumber
                     (thMessage file line fmt args)
                     s.defaultArgErrorHandlerData))
    ∧ (∀ (s : THState) (file : String) (line : Int) (c : Bool)
        (argNumber : Int) (fmt : String) (args : List FmtArg),
       (_THArgCheck s file line c argNumber fmt args = none ↔ c = true))
    ∧ (∀ (file : String) (line : Int) (fmt : String) (args : List FmtArg),
       (thMessage file line fmt args).length ≤ 2047) := by
  refine ⟨?_, ?_, ?_, ?_⟩
  · intro s file line argNumber fmt args
    simp [_THArgCheck]
  · intro s file line argNumber fmt args
    cases hk : s.threadArgErrorHandler <;> simp [_THArgCheck, hk]
  · intro s file line c argNumber fmt args
    cases c with
    | true => simp [_THArgCheck]
    | false => cases hk : s.threadArgErrorHandler <;> simp [_THArgCheck, hk]
  · intro file line fmt args
    exact thMessage_length_le file line fmt args

/-- C9: assertion failure renders the fixed text with the condition and the
formatted explanation spliced in, and forwards it to `_THError` at the given
location (the same never-returning error path); when the explanation fits
its 1024-character buffer it is taken whole. -/
theorem th_assert_c9 :
    (∀ (s : THState) (file : String) (line : Int) (exp : String)
        (fmt : String) (args : List FmtArg),
       _THAssertionFailed s file line exp fmt args
         = _THError s file line ("Assertion `%s\x27 failed. %s")
             (FmtArg.str exp
               :: FmtArg.str (String.mk (assertExplanation fmt args)) :: []))
    ∧ (∀ (exp expl : String),
       formatArgs (("Assertion `%s\x27 failed. %s").data)
           (FmtArg.str exp :: FmtArg.str expl :: [])
         = ("Assertion `").data ++ (exp.data
             ++ (("\x27 failed. ").data ++ (expl.data ++ []))))
    ∧ (∀ (fmt : String) (args : List FmtArg),
       nulChar ∉ formatArgs fmt.data args →
       (formatArgs fmt.data args).length ≤ 1023 →
       assertExplanation fmt args = formatArgs fmt.data args) := by
  refine ⟨?_, ?_, ?_⟩
  · intro s file line exp fmt args
    rfl
  · intro exp expl
    rfl
  · intro fmt args hb hlen
    rw [assertExplanation, snprintfAt_empty _ _ (by omega)]
    have ht : (formatArgs fmt.data args).take ((1024 : Int).toNat - 1)
        = formatArgs fmt.data args := by
      apply List.take_of_length_le
      omega
    rw [ht]
    exact readCString_append _ _ hb

/-- Witness for C9 with a short explanation. -/
theorem th_assert_c9_witness :
    assertExplanation ("x%d") (FmtArg.int 7 :: [])
      = formatArgs (("x%d").data) (FmtArg.int 7 :: []) :=
  th_assert_c9.2.2 ("x%d") (FmtArg.int 7 :: []) (by decide) (by decide)

/-! ## Claim theorem: descriptive buffer formatter -/

/-- C5: for every sequence of dimension sizes, `_THSizeDesc` leaves in the
buffer a null-terminated string (terminator within the 64-character
capacity, right after the printable text) of printable length at most 63,
which is either exactly `[d0 x d1 x ... x dn]` or, when truncated, a string
ending in `"...]"` whose length is exactly the capacity minus the
terminator (63); in particular `[2,3,4]` yields `"[2 x 3 x 4]"`. -/
theorem th_sizeDesc_c5 :
    (∀ dims : List Int,
       (_THSizeDesc dims).length ≤ 63
       ∧ (sizeDescBuf dims)[(_THSizeDesc dims).length]? = some nulChar
       ∧ (_THSizeDesc dims = sizeRender dims
          ∨ ((_THSizeDesc dims).length = 63
             ∧ ∃ q, _THSizeDesc dims = q ++ ("...]").data)))
    ∧ _THSizeDesc (2 :: 3 :: 4 :: []) = ("[2 x 3 x 4]").data := by
  constructor
  · intro dims
    rcases sizeDescBuf_spec dims with ⟨out, J, hsh, hnn, hlen, hdisj⟩
    have hout : _THSizeDesc dims = out := by
      rw [_THSizeDesc, hsh, readCString_append _ _ hnn]
    refine ⟨by rw [hout]; exact hlen, ?_, ?_⟩
    · rw [hout, hsh]
      exact getElem?_append_nul out J
    · rw [hout]
      rcases hdisj with h | ⟨h1, qq, h2⟩
      · exact Or.inl h
      · exact Or.inr ⟨h1, qq, h2⟩
  · decide
